import Mathlib

/-!
Verification of the Ceres floppy tool's decode pipeline (cft.go).

The program decodes a legacy Oberon/Ceres floppy image: it validates the
boot sector, decodes the packed allocation table (FAT), enumerates the
directory region and reassembles file contents by following allocation
chains.  Every definition below is a shallow embedding of the
corresponding Go function; machine integers (int16, int32) are modelled
as `Int` with explicit two's-complement reinterpretation where the Go
code reinterprets bytes, and Go slice-bounds panics are modelled as
`Option.none`.
-/

namespace Cft

/-- Fixed block size of the floppy geometry (`blockSize` in cft.go). -/
def blockSize : Nat := 512

/-- Maximum filename length in a directory record (`maxFilenameLen`). -/
def maxFilenameLen : Nat := 22

/-- Size in bytes of one directory record (`fileDescSize`). -/
def fileDescSize : Nat := 32

/-- Number of directory records per block (`dirEntriesPerBlock` = 512/32 = 16). -/
def dirEntriesPerBlock : Nat := blockSize / fileDescSize

/-- Reinterpret a 16-bit unsigned pattern as a signed int16 value,
as Go's `int16(hi)<<8 | int16(lo)` assembly does. -/
def toInt16 (u : Nat) : Int :=
  if u < 32768 then (u : Int) else (u : Int) - 65536

/-- Reinterpret a 32-bit unsigned pattern as a signed int32 value,
as Go's four-byte little-endian assembly into int32 does. -/
def toInt32 (u : Nat) : Int :=
  if u < 2147483648 then (u : Int) else (u : Int) - 4294967296

/-- The raw image: a byte at every offset plus the loaded length
(Go's `img []byte` field of `floppy`). -/
structure ImageBuffer where
  data : Nat → Nat
  len : Nat

/-- One decoded 32-byte directory record (Go's `fileDesc` struct:
`name [22]byte; time, date int16; head int16; size int32`). -/
structure fileDesc where
  name : List Nat
  time : Int
  date : Int
  head : Int
  size : Int
deriving DecidableEq

/-- A decoded calendar timestamp: the six fields the Go code passes to
`time.Date` (year, month, day, hour, minute, second). -/
structure DateTime where
  year : Nat
  month : Nat
  day : Nat
  hour : Nat
  minute : Nat
  second : Nat
deriving DecidableEq

/-- Decode one 32-byte directory record at slot `ofs` of a directory
block, mirroring `fileDescFromBytes` in cft.go: the 22 name bytes are
copied, and time/date/head/size are assembled little-endian into
signed int16/int32 values. -/
def fileDescFromBytes (buf : List Nat) (ofs : Nat) : fileDesc :=
  let base := ofs * fileDescSize
  { name := (List.range maxFilenameLen).map (fun k => buf.getD (base + k) 0)
    time := toInt16 (buf.getD (base + 23) 0 * 256 + buf.getD (base + 22) 0)
    date := toInt16 (buf.getD (base + 25) 0 * 256 + buf.getD (base + 24) 0)
    head := toInt16 (buf.getD (base + 27) 0 * 256 + buf.getD (base + 26) 0)
    size := toInt32 (buf.getD (base + 31) 0 * 16777216 + buf.getD (base + 30) 0 * 65536 +
      buf.getD (base + 29) 0 * 256 + buf.getD (base + 28) 0) }

/-- Decode the packed date/time fields of a record into calendar fields,
mirroring `timestamp` in cft.go.  The Go code shifts and masks the
signed int16 fields; since every mask keeps only bits that are not
touched by the arithmetic shift's sign extension, shifting and masking
the underlying 16-bit pattern (recovered by `emod 65536`) is exactly
equivalent.  Note the Go source masks the minute with `0x6f` (not
`0x3f`) and adds 1900 to the 7-bit year offset. -/
def timestamp (fd : fileDesc) : DateTime :=
  let dpat := (fd.date.emod 65536).toNat
  let tpat := (fd.time.emod 65536).toNat
  { year := 1900 + (dpat >>> 9 &&& 0x7f)
    month := dpat >>> 5 &&& 0xf
    day := dpat &&& 0x1f
    hour := tpat >>> 11 &&& 0x1f
    minute := tpat >>> 5 &&& 0x6f
    second := (tpat &&& 0x1f) * 2 }

/-- Bounds-checked block-range access, mirroring `getBlocks` in cft.go:
`fl.img[ofs : ofs+cnt*blockSize]`.  A Go slice expression panics unless
`0 ≤ ofs ≤ ofs+cnt*blockSize ≤ len(img)`; the panic is modelled as
`none`. -/
def getBlocks (img : ImageBuffer) (idx cnt : Int) : Option (List Nat) :=
  if 0 ≤ idx * (blockSize : Int) ∧
      idx * (blockSize : Int) ≤ idx * (blockSize : Int) + cnt * (blockSize : Int) ∧
      idx * (blockSize : Int) + cnt * (blockSize : Int) ≤ (img.len : Int) then
    some ((List.range (cnt * (blockSize : Int)).toNat).map
      (fun k => img.data ((idx * (blockSize : Int)).toNat + k)))
  else none

/-- Single-block access (`getBlock` in cft.go). -/
def getBlock (img : ImageBuffer) (idx : Int) : Option (List Nat) :=
  getBlocks img idx 1

/-- Decode one 3-byte FAT group into two signed 12-bit entries, exactly
as the loop body of `initFAT` does: `n0 = n % 4096`, `n1 = n / 4096`,
re-basing any value above 2047 by subtracting 4096.  The assembled `n`
is always nonnegative (three bytes), where Go's `%` and `/` agree with
`Int`'s. -/
def decodeGroup (n : Int) : Int × Int :=
  let n0 := n % 4096
  let n0 := if n0 > 2047 then n0 - 4096 else n0
  let n1 := n / 4096
  let n1 := if n1 > 2047 then n1 - 4096 else n1
  (n0, n1)

/-- The FAT-filling loop of `initFAT`: Go iterates `i` from 2 while
`i < 720` stepping by 2, reading the 3-byte group at offset `j`
(starting at 3, stepping by 3) and emitting entries `i, i+1`.  Here the
loop is driven by the remaining entry count `720 - i`, which decreases
by 2 each iteration; `j` is threaded exactly as in the source. -/
def fatPairs (buf : List Nat) : Nat → Nat → List Int
  | 0, _ => []
  | 1, _ => []
  | r + 2, j =>
    let n : Int := (buf.getD (j + 2) 0) * 65536 + (buf.getD (j + 1) 0) * 256 + buf.getD j 0
    let p := decodeGroup n
    p.1 :: p.2 :: fatPairs buf r (j + 3)

/-- Build the 720-entry allocation table from the 3 FAT blocks
(blocks 1-3), mirroring `initFAT`: entries 0 and 1 are hardwired to the
no-link sentinel -1, the rest are decoded pairwise starting at byte
offset 3 of the FAT area.  `none` models the slice panic when the image
is shorter than 4 blocks. -/
def initFAT (img : ImageBuffer) : Option (List Int) :=
  (getBlocks img 1 3).map (fun buf => -1 :: -1 :: fatPairs buf 718 3)

/-- A loaded floppy: the image plus the once-decoded allocation table
(Go's `floppy` struct). -/
structure Floppy where
  img : ImageBuffer
  fat : List Int

/-- Image load, mirroring `newFloppy`: the FAT is decoded exactly once
when the image is loaded. -/
def newFloppy (img : ImageBuffer) : Option Floppy :=
  (initFAT img).map (fun f => ⟨img, f⟩)

/-- Read one directory block as 16 records (`readDirBlock` in cft.go). -/
def readDirBlock (fl : Floppy) (block : Int) : Option (List fileDesc) :=
  (getBlock fl.img block).map (fun buf =>
    (List.range dirEntriesPerBlock).map (fun i => fileDescFromBytes buf i))

/-- The error sites of `listFiles` in cft.go, one constructor per
`errors.New` call: the media-descriptor check ("Neither Oberon nor
MSDOS formatted diskette"), the volume-label attribute check ("Block 7
does not contain a valid volume label"), and the label name-byte check
("Not Oberon format"). -/
inductive Err where
  | notOberonOrMsdos
  | noVolumeLabel
  | notOberonFormat
deriving DecidableEq

/-- The directory-enumeration loop of `listFiles`: at state `(s, j)` the
loop inspects record `j` of the current block `s`, stops (excluding the
record) when its first name byte is 0 or 0xE5, otherwise collects it;
when the block's 16 slots are exhausted it advances to block `s+1`,
stopping without error when `s+1` reaches 14.  The loop is only ever
entered at `(7, 1)`; the bounds `s < 14` and `j < 16`, which the code
maintains, are carried as arguments to express the decreasing measure. -/
def dirLoop (fl : Floppy) (s j : Nat) (hs : s < 14) (hj : j < 16)
    (dbuf : List fileDesc) : Option (List fileDesc) :=
  match dbuf.get? j with
  | none => none
  | some fd =>
    if fd.name.getD 0 0 = 0 ∨ fd.name.getD 0 0 = 0xe5 then some []
    else
      if h16 : j + 1 = dirEntriesPerBlock then
        if h14 : s + 1 = 14 then some [fd]
        else
          (readDirBlock fl ((s : Int) + 1)).bind
            (fun dbuf2 => (dirLoop fl (s + 1) 0 (by omega) (by omega) dbuf2).map (fd :: ·))
      else (dirLoop fl s (j + 1) hs
        (by simp [dirEntriesPerBlock, blockSize, fileDescSize] at h16; omega) dbuf).map (fd :: ·)
termination_by (14 - s) * 16 + (16 - j)
decreasing_by
  · omega
  · omega

/-- List the directory, mirroring `listFiles` in cft.go: validate the
media-descriptor byte of block 0, validate the volume label in the
first record of block 7, then run the enumeration loop from slot 1 of
block 7.  `none` models a slice panic; `Except.error` models the three
`errors.New` returns. -/
def listFiles (fl : Floppy) : Option (Except Err (List fileDesc)) :=
  match getBlock fl.img 0 with
  | none => none
  | some buf =>
    if buf.getD 21 0 ≠ 0xf9 ∧ buf.getD 21 0 ≠ 0xe9 then
      some (Except.error Err.notOberonOrMsdos)
    else
      match readDirBlock fl 7 with
      | none => none
      | some dbuf =>
        match dbuf.get? 0 with
        | none => none
        | some fd =>
          if fd.name.getD 11 0 ≠ 8 then some (Except.error Err.noVolumeLabel)
          else if fd.name.getD 0 0 < 0xe5 ∧ fd.name.getD 0 0 ≠ 0 then
            some (Except.error Err.notOberonFormat)
          else (dirLoop fl 7 1 (by omega) (by omega) dbuf).map Except.ok

/-- Allocation-table lookup `fl.fat[i]`: a Go array access panics unless
`0 ≤ i < len`. -/
def fatGet (fl : Floppy) (i : Int) : Option Int :=
  if 0 ≤ i then fl.fat.get? i.toNat else none

/-- The chain-follow loop of `readFile`: while more than 1024 bytes
remain, append the current 1024-byte allocation unit, advance through
the allocation table and read the next unit.  On exit, append the first
`remaining` bytes of the last unit (a Go slice `buf[0:remaining]`, which
panics when `remaining` is negative).  The second component counts the
`getBlocks` calls made inside the loop.  The recursion is on
`remaining.toNat`, which strictly decreases by 1024 each iteration and
is entirely independent of the allocation table's contents. -/
def readLoop (fl : Floppy) (buf : List Nat) (remaining i : Int) :
    Option (List Nat) × Nat :=
  if h : 1024 < remaining then
    match fatGet fl i with
    | none => (none, 0)
    | some i2 =>
      match getBlocks fl.img (10 + 2 * i2) 2 with
      | none => (none, 1)
      | some buf2 =>
        match readLoop fl buf2 (remaining - 1024) i2 with
        | (r, n) => ((r.map fun t => buf ++ t), n + 1)
  else
    if remaining < 0 then (none, 0) else (some (buf.take remaining.toNat), 0)
termination_by remaining.toNat
decreasing_by omega

/-- Reassemble a file's content, mirroring `readFile` in cft.go: a
zero-size entry yields the empty result immediately; otherwise the
first allocation unit at block `10 + 2*head` is read and the chain loop
runs.  The second component counts all `getBlocks` calls (allocation
units read). -/
def readFile (fl : Floppy) (fd : fileDesc) : Option (List Nat) × Nat :=
  if fd.size = 0 then (some [], 0)
  else
    match getBlocks fl.img (10 + 2 * fd.head) 2 with
    | none => (none, 1)
    | some buf =>
      match readLoop fl buf fd.size fd.head with
      | (r, n) => (r, n + 1)

/-- State-passing form of `listFiles`: the Go method takes the floppy by
pointer but assigns to none of its fields, so the translated operation
returns the floppy unchanged alongside its result. -/
def listFilesSt (fl : Floppy) : Option (Except Err (List fileDesc)) × Floppy :=
  (listFiles fl, fl)

/-- State-passing form of `readFile`: the Go method assigns to no field
of the floppy, so the translated operation returns it unchanged. -/
def readFileSt (fl : Floppy) (fd : fileDesc) : (Option (List Nat) × Nat) × Floppy :=
  (readFile fl fd, fl)

/-! Spec-side reference definitions, written from the specification's
description of the directory enumeration (spec §4.3 step 3): the
sequence of 32-byte records of directory blocks 7 through 13, starting
at the second slot of block 7, truncated at the first unused (0) or
deleted (0xE5) record. -/

/-- The 512 bytes of block `s` of the image, read directly. -/
def blockBytes (fl : Floppy) (s : Nat) : List Nat :=
  (List.range blockSize).map (fun k => fl.img.data (s * blockSize + k))

/-- The 16 records of directory block `s`, decoded in slot order. -/
def dirBlockDescs (fl : Floppy) (s : Nat) : List fileDesc :=
  (List.range dirEntriesPerBlock).map (fun i => fileDescFromBytes (blockBytes fl s) i)

/-- All records of the directory region from slot `j` of block `s`
through the last slot of block 13, in on-disk order. -/
def entriesFrom (fl : Floppy) (s j : Nat) : List fileDesc :=
  (((List.range (14 - s)).map (fun b => dirBlockDescs fl (s + b))).flatten).drop j

/-- Whether a record is a live directory entry: its first name byte is
neither 0 (unused) nor 0xE5 (deleted). -/
def keepEntry (fd : fileDesc) : Bool :=
  !(fd.name.getD 0 0 == 0 || fd.name.getD 0 0 == 0xe5)

/-- The enumeration result described by the spec: the records from slot
1 of block 7 onward, up to but excluding the first unused or deleted
record, the directory region being fully consumed otherwise. -/
def specListing (fl : Floppy) : List fileDesc :=
  (entriesFrom fl 7 1).takeWhile keepEntry

/-- The concatenation of the record lists of directory blocks `s`
through 13 (the unrolled form of `entriesFrom` at slot 0). -/
def dirFlat (fl : Floppy) (s : Nat) : List fileDesc :=
  ((List.range (14 - s)).map (fun b => dirBlockDescs fl (s + b))).flatten

/-- Spec-side packing of two signed 12-bit values into one little-endian
3-byte group: `a` occupies the low 12 bits, `b` the high 12 bits
(spec §8, round-trip property). -/
def packGroup (a b : Int) : Int :=
  a % 4096 + 4096 * (b % 4096)

/-! Concrete inputs used by witnesses and counterexamples. -/

/-- An all-zero one-block image. -/
def img512 : ImageBuffer := { data := fun _ => 0, len := 512 }

/-- A floppy over `img512` (the FAT plays no role in the tests using it). -/
def fl512 : Floppy := { img := img512, fat := [] }

/-- An all-zero four-block image, just enough for `initFAT`. -/
def img2048 : ImageBuffer := { data := fun _ => 0, len := 2048 }

/-- An 8-block image with a valid media descriptor and volume-label
marker whose label name starts with byte 1 (nonzero, below 0xE5). -/
def imgCex : ImageBuffer :=
  { data := fun i => if i = 21 then 0xf9 else if i = 3595 then 8 else if i = 3584 then 1 else 0
    len := 4096 }

/-- A floppy over `imgCex`. -/
def flCex : Floppy := { img := imgCex, fat := [] }

/-- A 14-block image with a valid media descriptor and an all-zero
directory: the volume label carries the marker and an empty name, and
the first enumerated slot is unused. -/
def img6 : ImageBuffer :=
  { data := fun i => if i = 21 then 0xf9 else if i = 3595 then 8 else 0
    len := 7168 }

/-- A floppy over `img6`. -/
def fl6 : Floppy := { img := img6, fat := [] }

/-- A 12-block image filled with byte 7: blocks 10-11 form the first
data-area allocation unit. -/
def img12 : ImageBuffer := { data := fun _ => 7, len := 6144 }

/-- A floppy over `img12` with an all-sentinel allocation table. -/
def fl12 : Floppy := { img := img12, fat := List.replicate 720 (-1) }

/-- A directory entry of size 5 whose chain starts at head 0. -/
def fdSmall : fileDesc :=
  { name := List.replicate 22 65, time := 0, date := 0, head := 0, size := 5 }

/-- A directory entry of size 0. -/
def fdZero : fileDesc :=
  { name := List.replicate 22 65, time := 0, date := 0, head := 0, size := 0 }

/-- The directory entry of claim C4: packed date bits y=23, m=6, d=15
(value 23*512 + 6*32 + 15 = 11983) and packed time bits hh=10, mm=30,
ss=21 (value 10*2048 + 30*32 + 21 = 21461). -/
def fdC4 : fileDesc :=
  { name := List.replicate 22 0, time := 21461, date := 11983, head := 0, size := 0 }

/-! Helper lemmas. -/

theorem getD_range_map {α : Type} (f : Nat → α) (n k : Nat) (d : α) (h : k < n) :
    ((List.range n).map f).getD k d = f k := by
  simp [List.getD_eq_getElem?_getD, List.getElem?_map, List.getElem?_range h]

theorem get?_range_map {α : Type} (f : Nat → α) (n k : Nat) (h : k < n) :
    ((List.range n).map f).get? k = some (f k) := by
  simp [List.get?_eq_getElem?, List.getElem?_map, List.getElem?_range h]

theorem getBlocks_length (img : ImageBuffer) (idx cnt : Int) (bs : List Nat)
    (h : getBlocks img idx cnt = some bs) : bs.length = (cnt * (blockSize : Int)).toNat := by
  unfold getBlocks at h
  split at h
  · simp only [Option.some.injEq] at h
    subst h
    simp
  · exact absurd h (by simp)

theorem getBlock_eq_blockBytes (fl : Floppy) (s : Nat)
    (h : (s + 1) * blockSize ≤ fl.img.len) :
    getBlock fl.img (s : Int) = some (blockBytes fl s) := by
  have hb : blockSize = 512 := rfl
  rw [hb] at h
  unfold getBlock getBlocks blockBytes
  rw [hb]
  rw [if_pos (by push_cast; omega)]
  have h1 : ((1 : Int) * ((512 : Nat) : Int)).toNat = 512 := by decide
  have h2 : ((s : Int) * ((512 : Nat) : Int)).toNat = s * 512 := by push_cast; omega
  rw [h1, h2]

theorem readDirBlock_eq (fl : Floppy) (s : Nat)
    (h : (s + 1) * blockSize ≤ fl.img.len) :
    readDirBlock fl (s : Int) = some (dirBlockDescs fl s) := by
  unfold readDirBlock dirBlockDescs
  rw [getBlock_eq_blockBytes fl s h]
  rfl

theorem dirBlockDescs_length (fl : Floppy) (s : Nat) :
    (dirBlockDescs fl s).length = 16 := by
  simp [dirBlockDescs, dirEntriesPerBlock, blockSize, fileDescSize]

theorem dirBlockDescs_get? (fl : Floppy) (s j : Nat) (h : j < 16) :
    (dirBlockDescs fl s).get? j = some (fileDescFromBytes (blockBytes fl s) j) := by
  unfold dirBlockDescs
  exact get?_range_map _ _ _ (by simpa [dirEntriesPerBlock, blockSize, fileDescSize] using h)

theorem entriesFrom_eq_dirFlat (fl : Floppy) (s j : Nat) :
    entriesFrom fl s j = (dirFlat fl s).drop j := rfl

theorem dirFlat_succ (fl : Floppy) (s : Nat) (hs : s < 14) :
    dirFlat fl s = dirBlockDescs fl s ++ dirFlat fl (s + 1) := by
  unfold dirFlat
  rw [show 14 - s = (14 - (s + 1)) + 1 by omega, List.range_succ_eq_map,
    List.map_cons, List.flatten_cons, List.map_map]
  have hmap : ((fun b => dirBlockDescs fl (s + b)) ∘ Nat.succ)
      = fun b => dirBlockDescs fl (s + 1 + b) := by
    funext b
    simp only [Function.comp_apply]
    rw [show s + Nat.succ b = s + 1 + b by omega]
  rw [hmap, Nat.add_zero]

theorem dirFlat_last (fl : Floppy) : dirFlat fl 14 = [] := by
  simp [dirFlat]

theorem entriesFrom_cons (fl : Floppy) (s j : Nat) (hs : s < 14) (hj : j < 16) :
    entriesFrom fl s j =
      fileDescFromBytes (blockBytes fl s) j :: entriesFrom fl s (j + 1) := by
  rw [entriesFrom_eq_dirFlat, entriesFrom_eq_dirFlat, dirFlat_succ fl s hs]
  have hlen : j < (dirBlockDescs fl s ++ dirFlat fl (s + 1)).length := by
    rw [List.length_append, dirBlockDescs_length]
    omega
  rw [List.drop_eq_getElem_cons hlen]
  congr 1
  rw [List.getElem_append_left (by rw [dirBlockDescs_length]; omega)]
  have := dirBlockDescs_get? fl s j hj
  rw [List.get?_eq_getElem?] at this
  rw [List.getElem?_eq_getElem (by rw [dirBlockDescs_length]; omega)] at this
  exact Option.some.inj this

theorem entriesFrom_block_step (fl : Floppy) (s : Nat) (hs : s < 14) :
    entriesFrom fl s 16 = entriesFrom fl (s + 1) 0 := by
  rw [entriesFrom_eq_dirFlat, entriesFrom_eq_dirFlat, dirFlat_succ fl s hs]
  rw [List.drop_append_of_le_length (by rw [dirBlockDescs_length])]
  rw [show (16 : Nat) = (dirBlockDescs fl s).length by rw [dirBlockDescs_length]]
  simp

theorem entriesFrom_fourteen (fl : Floppy) : entriesFrom fl 14 0 = [] := by
  rw [entriesFrom_eq_dirFlat, dirFlat_last]
  rfl

theorem keepEntry_false {fd : fileDesc}
    (h : fd.name.getD 0 0 = 0 ∨ fd.name.getD 0 0 = 229) : keepEntry fd = false := by
  unfold keepEntry
  rcases h with h | h <;> rw [h] <;> rfl

theorem keepEntry_true {fd : fileDesc}
    (h : ¬(fd.name.getD 0 0 = 0 ∨ fd.name.getD 0 0 = 229)) : keepEntry fd = true := by
  rw [not_or] at h
  unfold keepEntry
  rw [beq_false_of_ne h.1, beq_false_of_ne h.2]
  rfl

theorem dirLoop_spec (fl : Floppy) (hlen : 14 * blockSize ≤ fl.img.len) :
    ∀ (s j : Nat) (hs : s < 14) (hj : j < 16) (dbuf : List fileDesc),
      dbuf = dirBlockDescs fl s →
      dirLoop fl s j hs hj dbuf = some ((entriesFrom fl s j).takeWhile keepEntry) := by
  intro s0 j0 hs0 hj0 dbuf0
  induction s0, j0, hs0, hj0, dbuf0 using dirLoop.induct fl with
  | case1 s j hs hj dbuf hget =>
    intro hdb
    subst hdb
    rw [dirBlockDescs_get? fl s j hj] at hget
    exact absurd hget (by simp)
  | case2 s j hs hj dbuf fd hget hterm =>
    intro hdb
    subst hdb
    have hfd : fd = fileDescFromBytes (blockBytes fl s) j := by
      have h0 := dirBlockDescs_get? fl s j hj
      rw [hget] at h0
      exact Option.some.inj h0
    rw [dirLoop, hget]
    dsimp only
    rw [if_pos hterm]
    rw [entriesFrom_cons fl s j hs hj, ← hfd,
      List.takeWhile_cons_of_neg (by simp [keepEntry_false hterm])]
  | case3 s j hs hj dbuf fd hget hterm h16 h14 =>
    intro hdb
    subst hdb
    have h16' : j + 1 = 16 := h16
    have hfd : fd = fileDescFromBytes (blockBytes fl s) j := by
      have h0 := dirBlockDescs_get? fl s j hj
      rw [hget] at h0
      exact Option.some.inj h0
    rw [dirLoop, hget]
    dsimp only
    rw [if_neg hterm, dif_pos h16, dif_pos h14]
    have hstep : entriesFrom fl s (j + 1) = [] := by
      rw [h16', entriesFrom_block_step fl s hs, h14, entriesFrom_fourteen]
    rw [entriesFrom_cons fl s j hs hj, ← hfd,
      List.takeWhile_cons_of_pos (keepEntry_true hterm), hstep]
    rfl
  | case4 s j hs hj dbuf fd hget hterm h16 h14 ih =>
    intro hdb
    subst hdb
    have h16' : j + 1 = 16 := h16
    have hfd : fd = fileDescFromBytes (blockBytes fl s) j := by
      have h0 := dirBlockDescs_get? fl s j hj
      rw [hget] at h0
      exact Option.some.inj h0
    rw [dirLoop, hget]
    dsimp only
    rw [if_neg hterm, dif_pos h16, dif_neg h14]
    have hcast : ((s : Int) + 1) = (((s + 1 : Nat)) : Int) := by push_cast; ring
    have hrd : readDirBlock fl ((s : Int) + 1) = some (dirBlockDescs fl (s + 1)) := by
      rw [hcast]
      exact readDirBlock_eq fl (s + 1) (by
        have hb : blockSize = 512 := rfl
        rw [hb] at hlen ⊢
        omega)
    rw [hrd, Option.some_bind]
    rw [ih (dirBlockDescs fl (s + 1)) rfl]
    rw [Option.map_some']
    have hstep : entriesFrom fl s (j + 1) = entriesFrom fl (s + 1) 0 := by
      rw [h16', entriesFrom_block_step fl s hs]
    rw [entriesFrom_cons fl s j hs hj, ← hfd,
      List.takeWhile_cons_of_pos (keepEntry_true hterm), hstep]
  | case5 s j hs hj dbuf fd hget hterm h16 ih =>
    intro hdb
    subst hdb
    have hfd : fd = fileDescFromBytes (blockBytes fl s) j := by
      have h0 := dirBlockDescs_get? fl s j hj
      rw [hget] at h0
      exact Option.some.inj h0
    rw [dirLoop, hget]
    dsimp only
    rw [if_neg hterm, dif_neg h16]
    rw [ih rfl]
    rw [Option.map_some']
    rw [entriesFrom_cons fl s j hs hj, ← hfd,
      List.takeWhile_cons_of_pos (keepEntry_true hterm)]

theorem getBlock_eq_blockBytes' (fl : Floppy) (si : Int) (s : Nat)
    (hsi : si = (s : Int)) (h : (s + 1) * blockSize ≤ fl.img.len) :
    getBlock fl.img si = some (blockBytes fl s) := by
  rw [hsi]
  exact getBlock_eq_blockBytes fl s h

theorem readDirBlock_eq' (fl : Floppy) (si : Int) (s : Nat)
    (hsi : si = (s : Int)) (h : (s + 1) * blockSize ≤ fl.img.len) :
    readDirBlock fl si = some (dirBlockDescs fl s) := by
  rw [hsi]
  exact readDirBlock_eq fl s h

theorem blockBytes_getD (fl : Floppy) (s k : Nat) (hk : k < blockSize) :
    (blockBytes fl s).getD k 0 = fl.img.data (s * blockSize + k) :=
  getD_range_map _ _ _ _ hk

theorem fileDesc_name_getD (buf : List Nat) (ofs k : Nat) (hk : k < maxFilenameLen) :
    (fileDescFromBytes buf ofs).name.getD k 0 = buf.getD (ofs * fileDescSize + k) 0 := by
  unfold fileDescFromBytes
  exact getD_range_map _ _ _ _ hk

theorem label_name_getD (fl : Floppy) (k : Nat) (hk : k < maxFilenameLen) :
    (fileDescFromBytes (blockBytes fl 7) 0).name.getD k 0 =
      fl.img.data (7 * blockSize + k) := by
  rw [fileDesc_name_getD _ _ _ hk]
  rw [show 0 * fileDescSize + k = k from by omega]
  exact blockBytes_getD fl 7 k (by
    have h1 : maxFilenameLen = 22 := rfl
    have h2 : blockSize = 512 := rfl
    omega)

theorem data21_eq (fl : Floppy) :
    (blockBytes fl 0).getD 21 0 = fl.img.data 21 := by
  rw [blockBytes_getD fl 0 21 (by have : blockSize = 512 := rfl; omega)]
  norm_num

/-- Characterization of `listFiles` as a chain of checks over raw image
bytes, valid whenever the image covers blocks 0 through 7. -/
theorem listFiles_eq (fl : Floppy) (hlen : 8 * blockSize ≤ fl.img.len) :
    listFiles fl =
      if fl.img.data 21 ≠ 0xf9 ∧ fl.img.data 21 ≠ 0xe9 then
        some (Except.error Err.notOberonOrMsdos)
      else if fl.img.data (7 * blockSize + 11) ≠ 8 then
        some (Except.error Err.noVolumeLabel)
      else if fl.img.data (7 * blockSize) < 0xe5 ∧ fl.img.data (7 * blockSize) ≠ 0 then
        some (Except.error Err.notOberonFormat)
      else (dirLoop fl 7 1 (by omega) (by omega) (dirBlockDescs fl 7)).map Except.ok := by
  have hb : blockSize = 512 := rfl
  unfold listFiles
  rw [getBlock_eq_blockBytes' fl 0 0 (by norm_num) (by omega)]
  dsimp only
  rw [data21_eq]
  by_cases h1 : fl.img.data 21 ≠ 0xf9 ∧ fl.img.data 21 ≠ 0xe9
  · rw [if_pos h1, if_pos h1]
  · rw [if_neg h1, if_neg h1]
    rw [readDirBlock_eq' fl 7 7 (by norm_num) (by omega)]
    dsimp only
    rw [dirBlockDescs_get? fl 7 0 (by omega)]
    dsimp only
    rw [label_name_getD fl 11 (by have : maxFilenameLen = 22 := rfl; omega),
      label_name_getD fl 0 (by have : maxFilenameLen = 22 := rfl; omega)]
    rw [show 7 * blockSize + 0 = 7 * blockSize from by omega]

theorem mapOk_ne_err {α ε : Type} (o : Option α) (e : ε) :
    o.map Except.ok ≠ some (Except.error e) := by
  cases o <;> simp

/-- C5: for every image covering block 0, if the media-descriptor byte
(block-0 byte 21) differs from both 0xF9 and 0xE9 then `listFiles`
fails with the unsupported-format error, and if it equals one of them
`listFiles` never fails for that reason. -/
theorem C5_media_check (fl : Floppy) (hlen : blockSize ≤ fl.img.len) :
    (fl.img.data 21 ≠ 0xf9 ∧ fl.img.data 21 ≠ 0xe9 →
      listFiles fl = some (Except.error Err.notOberonOrMsdos)) ∧
    (fl.img.data 21 = 0xf9 ∨ fl.img.data 21 = 0xe9 →
      listFiles fl ≠ some (Except.error Err.notOberonOrMsdos)) := by
  have hb : blockSize = 512 := rfl
  unfold listFiles
  rw [getBlock_eq_blockBytes' fl 0 0 (by norm_num) (by omega)]
  dsimp only
  rw [data21_eq]
  constructor
  · intro hbad
    rw [if_pos hbad]
  · intro hok
    rw [if_neg (by tauto)]
    cases hrd : readDirBlock fl 7 with
    | none => simp
    | some dbuf =>
      dsimp only
      cases hg : dbuf.get? 0 with
      | none => simp
      | some fd =>
        dsimp only
        split_ifs <;> simp

/-- C5 witness: the all-zero one-block image is rejected with the
unsupported-format error. -/
theorem C5_media_check_witness :
    listFiles fl512 = some (Except.error Err.notOberonOrMsdos) :=
  (C5_media_check fl512 (by decide)).1 (by decide)

/-- C1 (amended): after the volume-label marker has been verified, the
label name-byte check passes exactly when the first byte of the label's
name is 0 or at least 0xE5 (so enumeration proceeds with no error);
every nonzero value strictly below 0xE5 makes `listFiles` fail with the
`Not Oberon format` error. -/
theorem C1_label_check (fl : Floppy) (hlen : 8 * blockSize ≤ fl.img.len)
    (hmedia : fl.img.data 21 = 0xf9 ∨ fl.img.data 21 = 0xe9)
    (hmarker : fl.img.data (7 * blockSize + 11) = 8) :
    (fl.img.data (7 * blockSize) ≠ 0 ∧ fl.img.data (7 * blockSize) < 0xe5 →
      listFiles fl = some (Except.error Err.notOberonFormat)) ∧
    (fl.img.data (7 * blockSize) = 0 ∨ 0xe5 ≤ fl.img.data (7 * blockSize) →
      ∀ e, listFiles fl ≠ some (Except.error e)) := by
  rw [listFiles_eq fl hlen]
  rw [if_neg (by tauto), if_neg (by omega)]
  constructor
  · intro hbad
    rw [if_pos (by omega)]
  · intro hok
    rw [if_neg (by omega)]
    intro e
    exact mapOk_ne_err _ _

/-- C1 counterexample: `flCex` carries a label whose first name byte is
1, which is nonzero and strictly below the deleted-entry marker 0xE5;
the claim says the check passes for such a byte, but `listFiles`
rejects the image with the `Not Oberon format` error. -/
theorem C1_counterexample :
    (flCex.img.data (7 * blockSize) = 1 ∧ (1 : Nat) < 0xe5 ∧ (1 : Nat) ≠ 0) ∧
    listFiles flCex = some (Except.error Err.notOberonFormat) := by
  refine ⟨⟨by decide, by decide, by decide⟩, ?_⟩
  rw [listFiles_eq flCex (by decide)]
  rw [if_neg (by decide), if_neg (by decide), if_pos (by decide)]

/-- C1 witness: on `flCex`, whose label name starts with the nonzero
byte 1 below 0xE5, the amended check fails with `Not Oberon format`. -/
theorem C1_label_check_witness :
    listFiles flCex = some (Except.error Err.notOberonFormat) :=
  (C1_label_check flCex (by decide) (by decide) (by decide)).1 (by decide)

/-- C6: for every image passing the header and volume-label checks and
covering the full directory region, `listFiles` returns exactly the
spec-side enumeration: the 32-byte records from the second slot of
block 7 through block 13 in on-disk order, truncated at (and excluding)
the first record whose first name byte is 0 or 0xE5, with enumeration
ending without error when block 14 is reached. -/
theorem C6_enumeration (fl : Floppy) (hlen : 14 * blockSize ≤ fl.img.len)
    (hmedia : fl.img.data 21 = 0xf9 ∨ fl.img.data 21 = 0xe9)
    (hmarker : fl.img.data (7 * blockSize + 11) = 8)
    (hname : fl.img.data (7 * blockSize) = 0 ∨ 0xe5 ≤ fl.img.data (7 * blockSize)) :
    listFiles fl = some (Except.ok (specListing fl)) := by
  have hb : blockSize = 512 := rfl
  rw [listFiles_eq fl (by omega)]
  rw [if_neg (by tauto), if_neg (by omega), if_neg (by omega)]
  rw [dirLoop_spec fl hlen 7 1 (by omega) (by omega) (dirBlockDescs fl 7) rfl]
  rfl

set_option maxRecDepth 40000 in
/-- C6 witness: on `fl6` the checks pass and the enumeration stops at
the unused first slot, returning the empty listing. -/
theorem C6_enumeration_witness :
    listFiles fl6 = some (Except.ok (specListing fl6)) ∧ specListing fl6 = [] := by
  constructor
  · exact C6_enumeration fl6 (by decide) (by decide) (by decide) (by decide)
  · rfl

theorem readLoop_small (fl : Floppy) (buf : List Nat) (r i : Int)
    (h1 : ¬1024 < r) (h2 : ¬r < 0) :
    readLoop fl buf r i = (some (buf.take r.toNat), 0) := by
  rw [readLoop, dif_neg h1, if_neg h2]

theorem readLoop_length (fl : Floppy) :
    ∀ (buf : List Nat) (remaining i : Int), buf.length = 1024 →
      ∀ (bs : List Nat) (n : Nat), readLoop fl buf remaining i = (some bs, n) →
      (bs.length : Int) = remaining := by
  intro buf0 r0 i0
  induction buf0, r0, i0 using readLoop.induct fl with
  | case1 buf r i h hfat =>
    intro hb bs n heq
    rw [readLoop, dif_pos h, hfat] at heq
    exact absurd heq (by simp)
  | case2 buf r i h i2 hfat hgb =>
    intro hb bs n heq
    rw [readLoop, dif_pos h, hfat] at heq
    dsimp only at heq
    rw [hgb] at heq
    exact absurd heq (by simp)
  | case3 buf r i h i2 hfat buf2 hgb r2 n2 hrec ih =>
    intro hb bs n heq
    rw [readLoop, dif_pos h, hfat] at heq
    dsimp only at heq
    rw [hgb] at heq
    dsimp only at heq
    rw [hrec] at heq
    dsimp only at heq
    have hb2 : buf2.length = 1024 := by
      have := getBlocks_length fl.img (10 + 2 * i2) 2 buf2 hgb
      simpa using this
    cases r2 with
    | none => exact absurd heq (by simp)
    | some t =>
      simp only [Option.map_some', Prod.mk.injEq, Option.some.injEq] at heq
      obtain ⟨hbs, hn⟩ := heq
      have ht : (t.length : Int) = r - 1024 := ih hb2 t n2 hrec
      subst hbs
      rw [List.length_append, hb]
      push_cast
      omega
  | case4 buf r i h1 h2 =>
    intro hb bs n heq
    rw [readLoop, dif_neg h1, if_pos h2] at heq
    exact absurd heq (by simp)
  | case5 buf r i h1 h2 =>
    intro hb bs n heq
    rw [readLoop_small fl buf r i h1 h2] at heq
    simp only [Prod.mk.injEq, Option.some.injEq] at heq
    obtain ⟨hbs, hn⟩ := heq
    subst hbs
    rw [List.length_take, hb]
    omega

theorem readLoop_count (fl : Floppy) :
    ∀ (buf : List Nat) (remaining i : Int),
      (readLoop fl buf remaining i).2 + 1 ≤ max 1 ((remaining.toNat + 1023) / 1024) := by
  intro buf0 r0 i0
  induction buf0, r0, i0 using readLoop.induct fl with
  | case1 buf r i h hfat =>
    rw [readLoop, dif_pos h, hfat]
    dsimp only
    omega
  | case2 buf r i h i2 hfat hgb =>
    rw [readLoop, dif_pos h, hfat]
    dsimp only
    rw [hgb]
    dsimp only
    omega
  | case3 buf r i h i2 hfat buf2 hgb r2 n2 hrec ih =>
    rw [readLoop, dif_pos h, hfat]
    dsimp only
    rw [hgb]
    dsimp only
    rw [hrec]
    rw [hrec] at ih
    dsimp only at ih ⊢
    omega
  | case4 buf r i h1 h2 =>
    rw [readLoop, dif_neg h1, if_pos h2]
    omega
  | case5 buf r i h1 h2 =>
    rw [readLoop_small fl buf r i h1 h2]
    omega

/-- C2: `readFile` returns a byte sequence whose length equals exactly
the entry's size field whenever it succeeds (i.e. whenever the chain
and data blocks lie within the image), and a zero-size entry yields the
empty sequence immediately, with no allocation unit read and no chain
traversal. -/
theorem C2_size_fidelity (fl : Floppy) (fd : fileDesc) :
    (fd.size = 0 → readFile fl fd = (some [], 0)) ∧
    (∀ bs, (readFile fl fd).1 = some bs → (bs.length : Int) = fd.size) := by
  constructor
  · intro h0
    unfold readFile
    rw [if_pos h0]
  · intro bs hbs
    unfold readFile at hbs
    by_cases h0 : fd.size = 0
    · rw [if_pos h0] at hbs
      simp only [Option.some.injEq] at hbs
      subst hbs
      simp [h0]
    · rw [if_neg h0] at hbs
      cases hgb : getBlocks fl.img (10 + 2 * fd.head) 2 with
      | none =>
        rw [hgb] at hbs
        exact absurd hbs (by simp)
      | some buf =>
        rw [hgb] at hbs
        dsimp only at hbs
        rcases hrl : readLoop fl buf fd.size fd.head with ⟨r2, n2⟩
        rw [hrl] at hbs
        dsimp only at hbs
        subst hbs
        have hb : buf.length = 1024 := by
          have := getBlocks_length fl.img (10 + 2 * fd.head) 2 buf hgb
          simpa using this
        exact readLoop_length fl buf fd.size fd.head hb bs n2 hrl

set_option maxRecDepth 40000 in
/-- C2 witness: on a 12-block image filled with byte 7, reading the
5-byte entry `fdSmall` yields exactly 5 bytes. -/
theorem C2_size_fidelity_witness :
    (readFile fl12 fdSmall).1 = some (List.replicate 5 7) ∧
    ((List.replicate 5 7).length : Int) = fdSmall.size := by
  have hgb : getBlocks fl12.img (10 + 2 * fdSmall.head) 2 =
      some ((List.range 1024).map (fun _ => 7)) := by decide
  have h : (readFile fl12 fdSmall).1 = some (List.replicate 5 7) := by
    unfold readFile
    rw [if_neg (by decide), hgb]
    dsimp only
    rw [readLoop_small fl12 _ fdSmall.size fdSmall.head (by decide) (by decide)]
    decide
  exact ⟨h, (C2_size_fidelity fl12 fdSmall).2 (List.replicate 5 7) h⟩

/-- C10: for every entry, the chain-follow loop of `readFile` reads at
most `max 1 ⌈size/1024⌉` allocation units (counting every `getBlocks`
call on the data area), and exactly zero units when `size = 0`; the
bound depends only on the size field, not on the allocation table, so
a cyclic chain cannot cause extra reads or non-termination. -/
theorem C10_read_bound (fl : Floppy) (fd : fileDesc) :
    (fd.size = 0 → (readFile fl fd).2 = 0) ∧
    (readFile fl fd).2 ≤ max 1 ((fd.size.toNat + 1023) / 1024) := by
  constructor
  · intro h0
    unfold readFile
    rw [if_pos h0]
  · unfold readFile
    by_cases h0 : fd.size = 0
    · rw [if_pos h0]
      omega
    · rw [if_neg h0]
      cases hgb : getBlocks fl.img (10 + 2 * fd.head) 2 with
      | none =>
        dsimp only
        omega
      | some buf =>
        dsimp only
        rcases hrl : readLoop fl buf fd.size fd.head with ⟨r2, n2⟩
        dsimp only
        have hc := readLoop_count fl buf fd.size fd.head
        rw [hrl] at hc
        exact hc

/-- C10 witness: reading the zero-size entry `fdZero` performs no
allocation-unit read at all, within the claimed bound. -/
theorem C10_read_bound_witness :
    (readFile fl12 fdZero).2 = 0 ∧
    (readFile fl12 fdZero).2 ≤ max 1 ((fdZero.size.toNat + 1023) / 1024) :=
  ⟨(C10_read_bound fl12 fdZero).1 (by decide), (C10_read_bound fl12 fdZero).2⟩


theorem fatPairs_length (buf : List Nat) :
    ∀ (r j : Nat), (fatPairs buf r j).length = r / 2 * 2 := by
  intro r
  induction r using Nat.strong_induction_on with
  | _ r ih =>
    intro j
    match r with
    | 0 => simp [fatPairs]
    | 1 => simp [fatPairs]
    | (r + 2) =>
      rw [fatPairs]
      simp only [List.length_cons]
      rw [ih r (by omega) (j + 3)]
      omega

/-- C3: packing any pair of signed 12-bit values in [-2048, 2047] into
one little-endian 3-byte group (a in the low 12 bits, b in the high 12
bits) and decoding the group by the allocation-table algorithm of
`initFAT` recovers exactly the pair. -/
theorem C3_roundtrip (a b : Int)
    (ha1 : -2048 ≤ a) (ha2 : a ≤ 2047) (hb1 : -2048 ≤ b) (hb2 : b ≤ 2047) :
    decodeGroup (packGroup a b) = (a, b) := by
  unfold decodeGroup packGroup
  dsimp only
  simp only [Prod.mk.injEq]
  constructor <;> split_ifs <;> omega

/-- C3 witness: the pair (-1, 5) packs to 4095 + 4096*5 = 24575 and
decodes back to (-1, 5). -/
theorem C3_roundtrip_witness : decodeGroup (packGroup (-1) 5) = (-1, 5) :=
  C3_roundtrip (-1) 5 (by decide) (by decide) (by decide) (by decide)

/-- C4 counterexample: for the entry with packed date bits y=23, m=6,
d=15 (date = 11983) and packed time bits hh=10, mm=30, ss=21
(time = 21461), the code decodes 1923-06-15 10:14:42, not the
2023-06-15 10:30:42 the claim states: the year is 1900+23 with no
century adjustment, and the minute mask 0x6f drops bit 4 of the
minutes, turning the stored 30 into 14. -/
theorem C4_counterexample :
    timestamp fdC4 = ⟨1923, 6, 15, 10, 14, 42⟩ ∧
    (⟨1923, 6, 15, 10, 14, 42⟩ : DateTime) ≠ ⟨2023, 6, 15, 10, 30, 42⟩ := by
  constructor <;> decide

/-- C4 (amended): the directory entry with packed date bits y=23, m=6,
d=15 and packed time bits hh=10, mm=30, ss_raw=21 decodes to the
calendar timestamp 1923-06-15 10:14:42. -/
theorem C4_timestamp : timestamp fdC4 = ⟨1923, 6, 15, 10, 14, 42⟩ := by decide

/-- C7: a block-range access `getBlocks start cnt` whose byte range
`start*blockSize + cnt*blockSize` exceeds the image length fails (the
modelled out-of-range slice panic), and every in-range access with
nonnegative start and count returns exactly the corresponding byte
range of the image. -/
theorem C7_bounds (img : ImageBuffer) (start cnt : Int) :
    (start * (blockSize : Int) + cnt * (blockSize : Int) > (img.len : Int) →
      getBlocks img start cnt = none) ∧
    (0 ≤ start → 0 ≤ cnt →
      start * (blockSize : Int) + cnt * (blockSize : Int) ≤ (img.len : Int) →
      getBlocks img start cnt =
        some ((List.range (cnt * (blockSize : Int)).toNat).map
          (fun k => img.data ((start * (blockSize : Int)).toNat + k)))) := by
  unfold getBlocks blockSize
  push_cast
  constructor
  · intro hgt
    rw [if_neg (by omega)]
  · intro h1 h2 h3
    rw [if_pos (by refine ⟨by omega, by omega, by omega⟩)]

/-- C7 witness: on the one-block image, requesting blocks 0-1 is out of
range and fails, while requesting block 0 alone returns its bytes. -/
theorem C7_bounds_witness :
    getBlocks img512 0 2 = none ∧
    getBlocks img512 0 1 =
      some ((List.range ((1 : Int) * (blockSize : Int)).toNat).map
        (fun k => img512.data (((0 : Int) * (blockSize : Int)).toNat + k))) :=
  ⟨(C7_bounds img512 0 2).1 (by decide),
   (C7_bounds img512 0 1).2 (by decide) (by decide) (by decide)⟩

/-- C8: whatever image the allocation table is decoded from, the
resulting table has exactly 720 entries, all filled, and entries 0 and
1 hold the reserved no-link sentinel -1 (a negative value, never a
valid chain link). -/
theorem C8_fat_reserved (img : ImageBuffer) (fat : List Int)
    (h : initFAT img = some fat) :
    fat.length = 720 ∧ fat.get? 0 = some (-1) ∧ fat.get? 1 = some (-1) := by
  unfold initFAT at h
  cases hgb : getBlocks img 1 3 with
  | none =>
    rw [hgb] at h
    exact absurd h (by simp)
  | some buf =>
    rw [hgb] at h
    simp only [Option.map_some', Option.some.injEq] at h
    subst h
    refine ⟨?_, rfl, rfl⟩
    simp only [List.length_cons, fatPairs_length]

theorem getD_map_zero (f : Nat → Nat) (hf : ∀ x, f x = 0) (n : Nat) :
    ∀ j, ((List.range n).map f).getD j 0 = 0 := by
  intro j
  by_cases hj : j < n
  · rw [getD_range_map f n j 0 hj, hf]
  · apply List.getD_eq_default
    simpa using by omega

theorem fatPairs_zero (buf : List Nat) (hbuf : ∀ j, buf.getD j 0 = 0) :
    ∀ (r j : Nat), fatPairs buf r j = List.replicate (r / 2 * 2) 0 := by
  intro r
  induction r using Nat.strong_induction_on with
  | _ r ih =>
    intro j
    match r with
    | 0 => simp [fatPairs]
    | 1 => simp [fatPairs]
    | (r + 2) =>
      rw [fatPairs]
      rw [hbuf, hbuf, hbuf, ih r (by omega) (j + 3)]
      rw [show (r + 2) / 2 * 2 = (r / 2 * 2) + 1 + 1 from by omega]
      rw [List.replicate_succ, List.replicate_succ]
      norm_num [decodeGroup]

set_option maxRecDepth 8000 in
theorem initFAT_img2048 :
    initFAT img2048 = some (-1 :: -1 :: List.replicate 718 0) := by
  unfold initFAT getBlocks
  rw [if_pos (by decide)]
  rw [Option.map_some']
  rw [fatPairs_zero _ (getD_map_zero
    (fun k => img2048.data ((1 * (blockSize : Int)).toNat + k))
    (fun x => rfl) ((3 * (blockSize : Int)).toNat)) 718 3]

/-- C8 witness: decoding the all-zero four-block image yields a
720-entry table whose entries 0 and 1 are the sentinel -1. -/
theorem C8_fat_reserved_witness :
    ((-1 : Int) :: -1 :: List.replicate 718 0).length = 720 ∧
    ((-1 : Int) :: -1 :: List.replicate 718 0).get? 0 = some (-1) ∧
    ((-1 : Int) :: -1 :: List.replicate 718 0).get? 1 = some (-1) :=
  C8_fat_reserved img2048 _ initFAT_img2048

/-- C9: `listFiles` and `readFile` mutate nothing: in state-passing
form both return the floppy (image bytes and allocation table)
unchanged, and repeating either call on the state returned by a
previous call gives the same result. -/
theorem C9_no_mutation (fl : Floppy) (fd : fileDesc) :
    (listFilesSt fl).2 = fl ∧ (readFileSt fl fd).2 = fl ∧
    (listFilesSt ((listFilesSt fl).2)).1 = (listFilesSt fl).1 ∧
    (readFileSt ((readFileSt fl fd).2) fd).1 = (readFileSt fl fd).1 ∧
    (readFileSt ((listFilesSt fl).2) fd).1 = (readFileSt fl fd).1 :=
  ⟨rfl, rfl, rfl, rfl, rfl⟩

end Cft
